import Mathlib

/-!
Shallow embedding of the moneypuck-mirror pipeline core:
  * `src/data/scripts/compute_rest.py`   (rest engine)
  * `src/scripts/build_nhl_daily.py`     (game-key construction, game_rest join)
  * `src/scripts/generate_signals.py`    (signal engine)

Conventions of the embedding:
  * UTC instants are modelled as minutes since an arbitrary epoch (`Int`);
    The Python ISO-8601 parsing (`_parse_utc`) is treated as the map from the
    ISO string to that instant.  Conversion to US Eastern (`_to_et`) adds an
    offset (in minutes) that may depend on the instant, so it is passed in as
    a function `etOff : Int → Int`; the Eastern calendar date of an instant
    is the floor-division of the Eastern-shifted instant by 1440.
    Comparisons between timezone-aware datetimes in Python compare the
    underlying instants, so they are modelled as comparisons of the UTC
    minutes directly.
  * JSON-ish Python values (the dict rows flowing between the scripts) are
    modelled by `JVal`; Python `dict.get` returning `None` for a missing key
    is modelled by `Option JVal` (`none` = key absent, `some .null` = key
    present with value `None`).
  * Python floats are modelled exactly: by `ℚ` where only field arithmetic
    and comparisons occur, and by `ℝ` where transcendental functions
    (`exp`, `erf`, `sqrt`) occur.
-/

/-! ### Python-style JSON values and dict operations -/

/-- A Python/JSON value as it appears in the slim data rows.  Arrays do not
occur in the fields the pipeline reads, so they are omitted.  Floats are
represented by rationals. -/
inductive JVal where
  | null
  | bool (b : Bool)
  | int (n : Int)
  | num (q : ℚ)
  | str (s : String)
  | obj (kvs : List (String × JVal))

/-- A Python dict with string keys. -/
abbrev PyDict := List (String × JVal)

/-- Python `d.get(k)`: `none` when the key is absent. -/
def dget (d : PyDict) (k : String) : Option JVal :=
  match d with
  | [] => none
  | (k2, v) :: rest => if k2 = k then some v else dget rest k

/-- Python truthiness of a value. -/
def truthyJ : JVal → Bool
  | .null => false
  | .bool b => b
  | .int n => n != 0
  | .num q => q != 0
  | .str s => s != ""
  | .obj kvs => !kvs.isEmpty

/-- Truthiness of `d.get(k)` (missing key counts as `None`, hence falsy). -/
def truthyO : Option JVal → Bool
  | none => false
  | some v => truthyJ v

/-- Python `str(v)`.  Only string values are ever passed through `str` on the
paths the claims exercise; the other constructors get the obvious renderings
(`str(None) = "None"`, ...).  `str` of a float or dict differs textually from
the Python repr, which is irrelevant here. -/
def pystr : JVal → String
  | .null => "None"
  | .bool b => if b then "True" else "False"
  | .int n => toString n
  | .num q => toString q
  | .str s => s
  | .obj _ => "{...}"

/-- Python `str(d.get(k) or "")`: the value if truthy, else the empty string,
rendered through `str`. -/
def pyGetStrOr (d : PyDict) (k : String) : String :=
  match dget d k with
  | some v => if truthyJ v then pystr v else ""
  | none => ""

/-- Python `d.get(k) or` empty-dict: the value if truthy, else an empty dict. -/
def pyOrEmpty (o : Option JVal) : JVal :=
  match o with
  | some v => if truthyJ v then v else .obj []
  | none => .obj []

/-- Python `d.get(k)` stored into a fresh dict: a missing key is stored as `None`
(this is exactly what `build_game_rest` does with `rest.get(...)`). -/
def dgetOrNull (d : PyDict) (k : String) : JVal :=
  (dget d k).getD .null

/-- Python `isinstance(v, (int, float))` reading of a value as a number.
Python booleans are subclasses of `int`, so they count as numbers. -/
def asNum : Option JVal → Option ℚ
  | some (.int n) => some (n : ℚ)
  | some (.num q) => some q
  | some (.bool b) => some (if b then 1 else 0)
  | _ => none

/-- Python `str.upper()` (over the character list; ASCII-only like the Lean
`Char.toUpper`, which suffices for team abbreviations). -/
def pyUpper (s : String) : String := ⟨s.data.map Char.toUpper⟩

/-! ### Rest engine (`src/data/scripts/compute_rest.py`) -/

/-- One game record as seen after `_extract_games`/`_game_start_utc`/
`_team_abbrev`: the start instant (`none` when no parseable start key was
found) and the uppercased 3-letter abbreviations extracted from the flat
`homeTeam`/`awayTeam` objects and from the nested `homeTeam.team`/
`awayTeam.team` objects (`none` when absent or not a 3-letter string). -/
structure SGame where
  start_utc : Option Int
  homeAbbrev : Option String
  awayAbbrev : Option String
  homeAbbrev2 : Option String
  awayAbbrev2 : Option String
deriving DecidableEq

/-- Source `_game_has_team(g, team)` for an already-uppercased `team`: match on the
flat abbreviations first, then on the nested ones. -/
def gameHasTeam (g : SGame) (team : String) : Bool :=
  (g.homeAbbrev == some team || g.awayAbbrev == some team) ||
  (g.homeAbbrev2 == some team || g.awayAbbrev2 == some team)

/-- Eastern calendar date (as a day number) of a UTC instant `t` under the
Eastern-offset function `etOff` (minutes to add to UTC). -/
def etDay (etOff : Int → Int) (t : Int) : Int :=
  (t + etOff t).fdiv 1440

/-- The `TeamRest` dataclass.  `prev_game_et_date` holds the Eastern day number
of the previous game (the source stores its ISO rendering). -/
structure TeamRest where
  rest_days : Int
  b2b : Bool
  prev_game_et_date : Option Int
  missing_prev_game : Bool
deriving DecidableEq

/-- The schedule-fetch collaborator: `(uppercased team, month key) ↦` the
extracted game list, or an error when the HTTP fetch / JSON decode raises.
(`_http_get_json` and `_extract_games` are network/shape glue folded into
this function.) -/
abbrev Fetch := String → String → Except Unit (List SGame)

/-- Source `RestComputer._fetch_team_month`: fetch and keep only games the team
plays in.  The per-(team, month) memoization cache is omitted: with a pure
deterministic `fetch` it only deduplicates calls and cannot change results. -/
def fetchTeamMonth (fetch : Fetch) (team : String) (yyyy_mm : String) :
    Except Unit (List SGame) :=
  match fetch (pyUpper team) yyyy_mm with
  | .error e => .error e
  | .ok games => .ok (games.filter (fun g => gameHasTeam g (pyUpper team)))

/-- Source `RestComputer._get_candidates`: query the (one or two) candidate months
`{month(game_day), month(game_day - lookback)}` in sorted order and
concatenate.  `monthKey` abstracts `_month_key` composed with day-number →
calendar-date conversion. -/
def getCandidates (fetch : Fetch) (monthKey : Int → String) (team : String)
    (gameDay : Int) (lookback : Int) : Except Unit (List SGame) :=
  let m1 := monthKey gameDay
  let m2 := monthKey (gameDay - lookback)
  let months := if m1 = m2 then [m1] else if m1 < m2 then [m1, m2] else [m2, m1]
  match months with
  | [m] => fetchTeamMonth fetch team m
  | [ma, mb] =>
    match fetchTeamMonth fetch team ma with
    | .error e => .error e
    | .ok ga =>
      match fetchTeamMonth fetch team mb with
      | .error e => .error e
      | .ok gb => .ok (ga ++ gb)
  | _ => .ok []

/-- The inner loop of `compute_team_rest`: the latest candidate start
strictly before the target instant `t` (Python compares aware datetimes,
i.e. instants; games without a parseable start are skipped). -/
def bestPrev (cands : List SGame) (t : Int) : Option Int :=
  cands.foldl
    (fun best g =>
      match g.start_utc with
      | none => best
      | some s =>
        if s < t then
          match best with
          | none => some s
          | some b => if s > b then some s else best
        else best)
    none

/-- No fetched game of this team qualifies as a prior game: every
team-matching game with a parseable start begins at or after the target
instant `t`.  (This is the condition under which the code degrades to the
`missing_prev_game` record.) -/
def noQualifyingPrior (team : String) (t : Int) (l : List SGame) : Prop :=
  ∀ g ∈ l, gameHasTeam g (pyUpper team) = true →
    ∀ s, g.start_utc = some s → ¬ s < t

/-- The record built from a found previous game: full off-days between the
two Eastern dates, clamped at zero. -/
def mkTeamRest (etOff : Int → Int) (gameDay : Int) (prevStart : Int) : TeamRest :=
  let prevDay := etDay etOff prevStart
  let offDays := gameDay - prevDay - 1
  let offDays := if offDays < 0 then 0 else offDays
  ⟨offDays, offDays == 0, some prevDay, false⟩

/-- Source `RestComputer.compute_team_rest`, with the `for lookback in (14, 30)`
loop unrolled.  A fetch error propagates (there is no `try`/`except` in the
source); only a successful search that finds no prior game degrades to the
`missing_prev_game` record. -/
def compute_team_rest (fetch : Fetch) (etOff : Int → Int)
    (monthKey : Int → String) (team : String) (t : Int) :
    Except Unit TeamRest :=
  let gameDay := etDay etOff t
  match getCandidates fetch monthKey team gameDay 14 with
  | .error e => .error e
  | .ok c14 =>
    match bestPrev c14 t with
    | some b => .ok (mkTeamRest etOff gameDay b)
    | none =>
      match getCandidates fetch monthKey team gameDay 30 with
      | .error e => .error e
      | .ok c30 =>
        match bestPrev c30 t with
        | some b => .ok (mkTeamRest etOff gameDay b)
        | none => .ok ⟨0, false, none, true⟩

/-- One input game for `build_slim_rest` (an entry of `slate_for_rest` built
in `build_nhl_daily.main`); the commence instant is the parsed value of the
row ISO `commence_time_utc` string. -/
structure RestSlateGame where
  game_key : String
  away_team : String
  home_team : String
  commence_utc : Int
deriving DecidableEq

/-- One output row of `build_slim_rest` (`date_et` as an Eastern day
number). -/
structure SlimRestRow where
  game_key : String
  date_et : Int
  away_team : String
  home_team : String
  away_rest_days : Int
  home_rest_days : Int
  away_b2b : Bool
  home_b2b : Bool
  rest_advantage : Int
  away_rest_missing : Bool
  home_rest_missing : Bool
deriving DecidableEq

/-- Source `build_slim_rest`: run the rest computation for both sides of each slate
game.  An exception from `compute_team_rest` propagates out of the whole
build (the source has no handler). -/
def build_slim_rest (fetch : Fetch) (etOff : Int → Int)
    (monthKey : Int → String) (games : List RestSlateGame) :
    Except Unit (List SlimRestRow) :=
  match games with
  | [] => .ok []
  | g :: rest =>
    let home := pyUpper g.home_team
    let away := pyUpper g.away_team
    let ct := g.commence_utc
    let dtEt := etDay etOff ct
    match compute_team_rest fetch etOff monthKey away ct with
    | .error e => .error e
    | .ok awayRest =>
      match compute_team_rest fetch etOff monthKey home ct with
      | .error e => .error e
      | .ok homeRest =>
        match build_slim_rest fetch etOff monthKey rest with
        | .error e => .error e
        | .ok rows =>
          .ok (⟨g.game_key, dtEt, away, home,
                awayRest.rest_days, homeRest.rest_days,
                awayRest.b2b, homeRest.b2b,
                homeRest.rest_days - awayRest.rest_days,
                awayRest.missing_prev_game, homeRest.missing_prev_game⟩ :: rows)

/-! ### Game keys (`src/scripts/build_nhl_daily.py`) -/

/-- Truthiness of an optional string (Python `not away_ab`). -/
def strTruthy : Option String → Bool
  | none => false
  | some s => s != ""

/-- One entry of the `slate_for_rest` list built in `build_nhl_daily.main`
(lines 841-858).  `team_to_abbrev` performs Unicode normalisation through
the Python `unicodedata` module, so it is passed in abstractly as `t2a`. -/
structure SlateGame where
  game_key : String
  away_team : String
  home_team : String
  commence_time_utc : JVal

/-- The per-game body of the slate loop in `build_nhl_daily.main`: abbreviate
both names, require both abbreviations and the commence time to be truthy,
and build `game_key` as `f"{away}_vs_{home}_{str(commence)[:10]}"`. -/
def slateEntry (t2a : String → Option String) (g : PyDict) : Option SlateGame :=
  match t2a (pyGetStrOr g "away_team"), t2a (pyGetStrOr g "home_team"),
        dget g "commence_time" with
  | some away, some home, some commence =>
    if away = "" ∨ home = "" ∨ truthyJ commence = false then none
    else some ⟨away ++ "_vs_" ++ home ++ "_" ++ (pystr commence).take 10,
               away, home, commence⟩
  | _, _, _ => none

/-- The key under which `build_game_rest` indexes a rest row:
`k = r.get("game_key"); if k: by_key[str(k)] = r`. -/
def rowKeyOf (r : PyDict) : Option String :=
  match dget r "game_key" with
  | some v => if truthyJ v then some (pystr v) else none
  | none => none

/-- Lookup in the `by_key` dict of `build_game_rest`; a later row with the
same key overwrites an earlier one, as in a Python dict built by
assignment. -/
def byKeyGet (rows : List PyDict) (k : String) : Option PyDict :=
  rows.foldl
    (fun acc r =>
      match rowKeyOf r with
      | some k2 => if k2 = k then some r else acc
      | none => acc)
    none

/-- The per-game body of `build_game_rest` (lines 724-755): rebuild the game
key from the odds row, look the key up among the rest rows, and emit the
joined dict.  (In Python, `rest.get(...)` of an absent key stores `None`,
modelled by `dgetOrNull`.) -/
def build_game_rest_entry (t2a : String → Option String)
    (rest_rows : List PyDict) (g : PyDict) : Option PyDict :=
  match t2a (pyGetStrOr g "away_team"), t2a (pyGetStrOr g "home_team"),
        dget g "commence_time" with
  | some away, some home, some commence =>
    if away = "" ∨ home = "" ∨ truthyJ commence = false then none
    else
      let game_key := away ++ "_vs_" ++ home ++ "_" ++ (pystr commence).take 10
      match byKeyGet rest_rows game_key with
      | none => none
      | some rest =>
        some [("game_key", .str game_key),
              ("away_team", .str away),
              ("home_team", .str home),
              ("commence_time_utc", commence),
              ("away_rest_days", dgetOrNull rest "away_rest_days"),
              ("home_rest_days", dgetOrNull rest "home_rest_days"),
              ("rest_adv_home", dgetOrNull rest "rest_adv_home")]
  | _, _, _ => none

/-- Source `build_game_rest`: the join of the odds slate with the rest rows. -/
def build_game_rest (t2a : String → Option String)
    (slimmed_odds rest_rows : List PyDict) : List PyDict :=
  slimmed_odds.filterMap (build_game_rest_entry t2a rest_rows)

/-- The dict actually appended by `build_slim_rest` for one row (the source
emits a dict literal with exactly these keys; `date_et` is stored as its day
number rather than its ISO rendering). -/
def SlimRestRow.toDict (r : SlimRestRow) : PyDict :=
  [("game_key", .str r.game_key),
   ("date_et", .int r.date_et),
   ("away_team", .str r.away_team),
   ("home_team", .str r.home_team),
   ("away_rest_days", .int r.away_rest_days),
   ("home_rest_days", .int r.home_rest_days),
   ("away_b2b", .bool r.away_b2b),
   ("home_b2b", .bool r.home_b2b),
   ("rest_advantage", .int r.rest_advantage),
   ("away_rest_missing", .bool r.away_rest_missing),
   ("home_rest_missing", .bool r.home_rest_missing)]

/-! ### Calendar helpers (for relating key dates to Eastern dates) -/

/-- Day number of a proleptic-Gregorian civil date (days since 1970-01-01),
the standard era-based algorithm. -/
def daysFromCivil (y m d : Int) : Int :=
  let yy := if m ≤ 2 then y - 1 else y
  let era := yy.fdiv 400
  let yoe := yy - era * 400
  let mp := if 2 < m then m - 3 else m + 9
  let doy := (153 * mp + 2).fdiv 5 + d - 1
  let doe := yoe * 365 + yoe.fdiv 4 - yoe.fdiv 100 + doy
  era * 146097 + doe - 719468

/-- UTC instant (minutes since 1970-01-01T00:00Z) of a civil UTC datetime. -/
def utcMinutes (y m d h mi : Int) : Int :=
  daysFromCivil y m d * 1440 + h * 60 + mi

/-- Zero-padded two-digit rendering. -/
def pad2 (n : Int) : String :=
  if 0 ≤ n ∧ n < 10 then "0" ++ toString n else toString n

/-- ISO `YYYY-MM-DD` rendering of a civil date. -/
def isoDate (y m d : Int) : String :=
  toString y ++ "-" ++ pad2 m ++ "-" ++ pad2 d

/-! ### Signal engine (`src/scripts/generate_signals.py`) -/

/-- Constant `REST_GOALS_PER_DAY = 0.08`. -/
def REST_GOALS_PER_DAY : ℝ := 0.08

/-- Constant `EDGE_MIN_PP = 2.0`. -/
def EDGE_MIN_PP : ℝ := 2.0

/-- Constant `ML_PRICE_MIN = -250`. -/
def ML_PRICE_MIN : Int := -250

/-- Constant `ML_PRICE_MAX = 250`. -/
def ML_PRICE_MAX : Int := 250

/-- The function `math.erf`, expressed by its integral definition. -/
noncomputable def erf (x : ℝ) : ℝ :=
  2 / Real.sqrt Real.pi * ∫ t in (0 : ℝ)..x, Real.exp (-(t ^ 2))

/-- Source `normal_cdf(x) = 0.5 * (1.0 + erf(x / sqrt(2)))`. -/
noncomputable def normal_cdf (x : ℝ) : ℝ :=
  0.5 * (1 + erf (x / Real.sqrt 2))

/-- The sum computed by the forward recurrence in `poisson_cdf`
(`term_0 = 1`, `term_i = term_{i-1} * mu / i`, summed to index `k`):
`∑_{i=0}^{k} mu^i / i!`. -/
noncomputable def poissonSum (k : ℕ) (mu : ℝ) : ℝ :=
  ∑ i ∈ Finset.range (k + 1), mu ^ i / (Nat.factorial i)

/-- Source `poisson_cdf(k, mu)`: `0` for `k < 0`, `1` for `mu <= 0`, otherwise the
recurrence sum scaled by `exp(-mu)` and clamped into `[0, 1]`. -/
noncomputable def poisson_cdf (k : Int) (mu : ℝ) : ℝ :=
  if k < 0 then 0
  else if mu ≤ 0 then 1
  else min 1 (max 0 (Real.exp (-mu) * poissonSum k.toNat mu))

/-- The Poisson point mass `P(X = k)` (mathematical auxiliary used to state
the push-probability property). -/
noncomputable def poisson_pmf (k : Int) (mu : ℝ) : ℝ :=
  if k < 0 then 0 else Real.exp (-mu) * mu ^ k.toNat / (Nat.factorial k.toNat)

/-- Source `implied_prob_from_american`. -/
def implied_prob_from_american (odds : Int) : Option ℚ :=
  if odds = 0 then none
  else if odds < 0 then some ((-odds : ℚ) / ((-odds : ℚ) + 100))
  else some (100 / ((odds : ℚ) + 100))

/-- Python 3 `round` on an exact value: round half to even, otherwise to the
nearest integer. -/
def pyround (q : ℚ) : Int :=
  if q - ⌊q⌋ = 1 / 2 then (if Even ⌊q⌋ then ⌊q⌋ else ⌊q⌋ + 1)
  else round q

/-- Source `fair_american_from_prob`. -/
def fair_american_from_prob (p : ℚ) : Option Int :=
  if p ≤ 0 ∨ 1 ≤ p then none
  else if 1 / 2 ≤ p then some (-(pyround (100 * p / (1 - p))))
  else some (pyround (100 * (1 - p) / p))

/-- Is `pat` a prefix of the second list? -/
def headMatches : List Char → List Char → Bool
  | [], _ => true
  | _ :: _, [] => false
  | p :: ps, c :: cs => p == c && headMatches ps cs

/-- Python `s.split(sep, 1)` over character lists: the text before and
after the first occurrence of (non-empty) `sep`, or `none` when `sep` does
not occur (which is also how Python reports `sep not in s`). -/
def splitOnce (sep : List Char) : List Char → Option (List Char × List Char)
  | [] => none
  | c :: cs =>
    if headMatches sep (c :: cs) then some ([], (c :: cs).drop sep.length)
    else
      match splitOnce sep cs with
      | some pp => some (c :: pp.1, pp.2)
      | none => none

/-- Python `str.strip()`: drop whitespace from both ends. -/
def pyStrip (s : String) : String :=
  ⟨((s.data.dropWhile Char.isWhitespace).reverse.dropWhile
      Char.isWhitespace).reverse⟩

/-- Source `parse_abbrevs_from_game_id` (the caller has already established the id
is a string): split once on `"_vs_"`; if absent, `(None, None)`; then split
the remainder once on `"_"` for the home abbreviation. -/
def parse_abbrevs_from_game_id (gid : String) : Option String × Option String :=
  match splitOnce "_vs_".data gid.data with
  | none => (none, none)
  | some ar =>
    match splitOnce "_".data ar.2 with
    | none => (some (pyStrip ⟨ar.1⟩), none)
    | some hr => (some (pyStrip ⟨ar.1⟩), some (pyStrip ⟨hr.1⟩))

/-- The `maybe_add_ml` closure in `generate_signals.main`, reduced to its
decision: `some edge_pp` when a signal is appended, `none` otherwise.  (The
human-readable `line` string built alongside is presentation glue.)  The
price must be an `int` in Python; a JSON boolean would also satisfy
`isinstance(price, int)` but never occurs in a price field. -/
noncomputable def maybe_add_ml (price book : Option JVal) (model_p : ℝ) :
    Option ℝ :=
  match price, book with
  | some (.int p), some (.str _) =>
    if p < ML_PRICE_MIN ∨ ML_PRICE_MAX < p then none
    else
      match implied_prob_from_american p with
      | none => none
      | some imp =>
        let edge_pp := (model_p - (imp : ℝ)) * 100
        if edge_pp < EDGE_MIN_PP then none else some edge_pp
  | _, _ => none

/-- The `maybe_add_total` closure: as `maybe_add_ml` but with no price-range
guard. -/
noncomputable def maybe_add_total (price book : Option JVal) (model_p : ℝ) :
    Option ℝ :=
  match price, book with
  | some (.int p), some (.str _) =>
    match implied_prob_from_american p with
    | none => none
    | some imp =>
      let edge_pp := (model_p - (imp : ℝ)) * 100
      if edge_pp < EDGE_MIN_PP then none else some edge_pp
  | _, _ => none

/-- Assignment into a Python dict rendered as an association list (existing
key overwritten in place, new key appended). -/
def setKey (m : List (String × Int)) (k : String) (v : Int) :
    List (String × Int) :=
  match m with
  | [] => [(k, v)]
  | (k2, v2) :: rest => if k2 = k then (k2, v) :: rest else (k2, v2) :: setKey rest k v

/-- Python `int(adv) if adv is not None else 0`, with the surrounding
`try`/`except` mapping any failure to `0` (a float truncates toward zero, a
non-numeric string falls back to `0`). -/
def intOrZero : Option JVal → Int
  | none => 0
  | some .null => 0
  | some (.int n) => n
  | some (.bool b) => if b then 1 else 0
  | some (.num q) => q.num.tdiv q.den
  | some (.str s) => s.toInt?.getD 0
  | some (.obj _) => 0

/-- The `rest_map` built in `generate_signals.main` (lines 117-125): keyed by
the `"id"` field of each rest row (when it is a string), valued by the row
`"rest_adv_home"` field coerced to an integer. -/
def buildRestMap (rest_list : List PyDict) : List (String × Int) :=
  rest_list.foldl
    (fun m r =>
      match dget r "id" with
      | some (.str gid) => setKey m gid (intOrZero (dget r "rest_adv_home"))
      | _ => m)
    []

/-- Python `rest_map.get(gid, 0)`. -/
def restLookup (m : List (String × Int)) (k : String) : Int :=
  match m with
  | [] => 0
  | (k2, v) :: rest => if k2 = k then v else restLookup rest k

/-- The rest-adjusted totals means (lines 207-208):
`mu_home_tot = max(0.1, mu_home_base + REST_GOALS_PER_DAY * rest_adv)` and
symmetrically for the away side. -/
noncomputable def totalsMeans (muHomeBase muAwayBase : ℝ) (restAdv : Int) :
    ℝ × ℝ :=
  (max 0.1 (muHomeBase + REST_GOALS_PER_DAY * restAdv),
   max 0.1 (muAwayBase - REST_GOALS_PER_DAY * restAdv))

/-- The totals-probability computation (lines 221-232): integer-line branch
when the line is within `1e-9` of its rounding, else the half-line branch on
the floor. -/
noncomputable def totalsProbs (Lf : ℚ) (muTotal : ℝ) : ℝ × ℝ :=
  if |Lf - (pyround Lf : ℚ)| < 1 / 1000000000 then
    let k : Int := pyround Lf
    (1 - poisson_cdf k muTotal, poisson_cdf (k - 1) muTotal)
  else
    let n : Int := ⌊Lf⌋
    (1 - poisson_cdf n muTotal, poisson_cdf n muTotal)

/-- Prepend an optional element (a conditional `append` in the source). -/
def optCons : Option ℝ → List ℝ → List ℝ
  | none, l => l
  | some x, l => x :: l

/-- The body of the per-game loop in `generate_signals.main` (lines
131-259), for one odds-row `g`: returns the skip reasons appended for this
game, the moneyline signal edges appended, and the totals signal edges
appended.  `teamsMap` is the `teams_map` built from the team rows (abbrev ↦
(xGF_pg, xGA_pg)); `restMap` is the `rest_map`.  A non-string `id` and a
truthy non-dict `totals` are bare `continue`s in the source — they append
nothing.  (A truthy non-dict under `h2h.best` would raise `AttributeError`
in Python; it is modelled as an empty dict, and no claim exercises it.) -/
noncomputable def processGame (teamsMap : String → Option (ℝ × ℝ))
    (restMap : List (String × Int)) (g : PyDict) :
    List String × List ℝ × List ℝ :=
  match dget g "id" with
  | some (.str gid) =>
    let ab := parse_abbrevs_from_game_id gid
    if !(strTruthy ab.1) || !(strTruthy ab.2) then
      ([s!"{gid}: cannot parse abbrevs from id"], [], [])
    else
      let awayAb := ab.1.getD ""
      let homeAb := ab.2.getD ""
      match teamsMap awayAb, teamsMap homeAb with
      | some ap, some hp =>
        let muHomeBase := (hp.1 + ap.2) / 2
        let muAwayBase := (ap.1 + hp.2) / 2
        let meanDiff := muHomeBase - muAwayBase
        let varDiff := muHomeBase + muAwayBase
        let sd := if 0 < varDiff then Real.sqrt varDiff else 0
        if sd ≤ 0 then ([s!"{gid}: sd<=0 for ML"], [], [])
        else
          let pHome := min 1 (max 0 (1 - normal_cdf ((0.5 - meanDiff) / sd)))
          let pAway := 1 - pHome
          let best : PyDict :=
            match pyOrEmpty (dget g "h2h") with
            | .obj d =>
              (match pyOrEmpty (dget d "best") with
               | .obj bd => bd
               | _ => [])
            | _ => []
          let mls :=
            optCons (maybe_add_ml (dget best "home_price") (dget best "home_book") pHome)
              (optCons (maybe_add_ml (dget best "away_price") (dget best "away_book") pAway) [])
          let restAdv := restLookup restMap gid
          let mus := totalsMeans muHomeBase muAwayBase restAdv
          let muTotal := mus.1 + mus.2
          match pyOrEmpty (dget g "totals") with
          | .obj tdict =>
            let bestt := pyOrEmpty (dget tdict "best")
            match bestt, asNum (dget tdict "line") with
            | .obj bd, some Lf =>
              let ps := totalsProbs Lf muTotal
              let tots :=
                optCons (maybe_add_total (dget bd "over_price") (dget bd "over_book") ps.1)
                  (optCons (maybe_add_total (dget bd "under_price") (dget bd "under_book") ps.2) [])
              ([], mls, tots)
            | _, _ => ([s!"{gid}: missing totals line/best"], mls, [])
          | _ => ([], mls, [])
      | _, _ => ([s!"{gid}: missing team stats for {awayAb} or {homeAb}"], [], [])
  | _ => ([], [], [])

/-! ### Report rendering (`generate_signals.main`, lines 280-294) -/

/-- One signal record: `MLSig` and `TotSig` both carry the edge and the
rendered line. -/
structure Sig where
  edge_pp : ℝ
  line : String

/-- The message printed for a section with fewer than 3 signals. -/
def noQualifiedMsg : String := "No qualified signals under current thresholds."

/-- Source `for i, s in enumerate(signals[:10], 1)` appending `f"{i}) {s.line}"`. -/
def enumLines (sigs : List Sig) : List String :=
  (sigs.take 10).enum.map (fun p => s!"{p.1 + 1}) {p.2.line}")

/-- One report section: the fallback message below 3 signals, otherwise the
first ten lines of the (already sorted) signal list. -/
def renderSection (sigs : List Sig) : List String :=
  if sigs.length < 3 then [noQualifiedMsg] else enumLines sigs

/-! ### Concrete fixtures used by witnesses and counterexamples -/

/-- A tiny concrete abbreviation table standing in for `team_to_abbrev`. -/
def t2aW : String → Option String := fun s =>
  if s = "New York Rangers" then some "NYR"
  else if s = "Boston Bruins" then some "BOS"
  else none

/-- A concrete slim odds row (the shape `slim_odds_current` emits). -/
def oddsGameW : PyDict :=
  [("id", .str "x"),
   ("commence_time", .str "2026-01-10T01:00:00Z"),
   ("home_team", .str "Boston Bruins"),
   ("away_team", .str "New York Rangers")]

/-- A schedule fetch in which every attempt raises. -/
def fetchFailW : Fetch := fun _ _ => .error ()

/-- A schedule game on Eastern day 20 (after every target used below). -/
def sgFutureW : SGame := ⟨some (1440 * 20 + 600), some "BOS", some "MTL", none, none⟩

/-- A schedule fetch that always succeeds, giving Boston only a future
game - data, but no qualifying prior game. -/
def fetchFutureW : Fetch := fun team _ =>
  if team = "BOS" then .ok [sgFutureW] else .ok []

/-- The constant EST offset (UTC-05:00), in minutes. -/
def etOffW : Int → Int := fun _ => -300

/-- A constant month key (the candidate months of every query coincide). -/
def monthKeyW : Int → String := fun _ => "2026-01"

/-- A fetch giving Boston one prior game (Eastern day 7) and the Rangers
none.  `1440 * 7 + 600` is 10:00 UTC = 05:00 ET on day 7. -/
def fetchC4 : Fetch := fun team _ =>
  if team = "BOS" then .ok [⟨some (1440 * 7 + 600), some "BOS", some "MTL", none, none⟩]
  else .ok []

/-- A fetch giving Boston one prior game on Eastern day 9. -/
def fetchB2B : Fetch := fun team _ =>
  if team = "BOS" then .ok [⟨some (1440 * 9 + 600), some "BOS", some "MTL", none, none⟩]
  else .ok []

/-- One slate game on Eastern day 10 (10:00 UTC = 05:00 ET). -/
def restSlateW : RestSlateGame :=
  ⟨"NYR_vs_BOS_2026-01-10", "NYR", "BOS", 1440 * 10 + 600⟩

/-- The rest row produced for `restSlateW` under `fetchC4`. -/
def rowC4 : SlimRestRow :=
  ⟨"NYR_vs_BOS_2026-01-10", 10, "NYR", "BOS", 0, 2, false, false, 2, true, false⟩

/-! ### Claim C9 -/

/-- Claim C9 as stated is false at `p = +100`: `implied_prob_from_american
100 = 1/2`, and `fair_american_from_prob (1/2)` takes the `p >= 0.5` branch,
returning `-100`, which does not lie within 1 unit of `+100`. -/
theorem C9_roundtrip_counterexample :
    (implied_prob_from_american 100).bind fair_american_from_prob = some (-100) ∧
    ¬ ((-100 : Int) - 100 ≤ 1 ∧ (-1 : Int) ≤ -100 - 100) := by
  constructor
  · norm_num [implied_prob_from_american, fair_american_from_prob, pyround, Option.bind]
  · decide

/-- Claim C9 (amended): the round-trip
`fair_american_from_prob (implied_prob_from_american p)` recovers `p`
exactly for `p ∈ {-250, -110, +240}`; for `p = +100` it returns `-100`,
the equivalent even-money quote (identical implied probability), rather
than a price within 1 unit of `+100`. -/
theorem C9_fair_price_roundtrip :
    (implied_prob_from_american (-250)).bind fair_american_from_prob = some (-250) ∧
    (implied_prob_from_american (-110)).bind fair_american_from_prob = some (-110) ∧
    (implied_prob_from_american 240).bind fair_american_from_prob = some 240 ∧
    (implied_prob_from_american 100).bind fair_american_from_prob = some (-100) ∧
    implied_prob_from_american (-100) = implied_prob_from_american 100 := by
  refine ⟨?_, ?_, ?_, ?_, ?_⟩ <;>
    norm_num [implied_prob_from_american, fair_american_from_prob, pyround, Option.bind]

/-! ### Claim C10 -/

/-- Claim C10: a section with fewer than 3 signals (even 1 or 2) renders
only the fallback message and lists no signal lines; with 3 or more it
renders exactly the first `min 10 n` lines of the descending-sorted list,
and every listed signal has edge at least that of every unlisted one. -/
theorem C10_render_thresholds (sigs : List Sig)
    (hsorted : sigs.Sorted (fun a b => b.edge_pp ≤ a.edge_pp)) :
    (sigs.length < 3 → renderSection sigs = [noQualifiedMsg]) ∧
    (3 ≤ sigs.length →
      renderSection sigs = enumLines sigs ∧
      (renderSection sigs).length = min 10 sigs.length ∧
      ∀ s ∈ sigs.take 10, ∀ t ∈ sigs.drop 10, t.edge_pp ≤ s.edge_pp) := by
  constructor
  · intro h
    simp [renderSection, h]
  · intro h
    have h3 : ¬ sigs.length < 3 := by omega
    refine ⟨by simp [renderSection, h3], ?_, ?_⟩
    · simp [renderSection, h3, enumLines]
    · intro s hs t ht
      exact hsorted.rel_of_mem_take_of_mem_drop hs ht

/-- Witness for C10 at the empty signal list. -/
theorem C10_render_thresholds_witness :
    renderSection [] = [noQualifiedMsg] :=
  (C10_render_thresholds [] (by simp)).1 (by simp)

/-! ### Claim C7 -/

/-- Claim C7: for a well-formed best price (an integer price with a book
string, and a nonzero price so that an implied probability exists), a
moneyline pick is appended iff its edge is at least `EDGE_MIN_PP` AND the
price lies in `[ML_PRICE_MIN, ML_PRICE_MAX]`; a totals pick is appended iff
its edge is at least `EDGE_MIN_PP` (no price-range guard). -/
theorem C7_edge_filter (p : Int) (book : String) (model_p : ℝ) (imp : ℚ)
    (himp : implied_prob_from_american p = some imp) :
    ((maybe_add_ml (some (.int p)) (some (.str book)) model_p).isSome ↔
      (ML_PRICE_MIN ≤ p ∧ p ≤ ML_PRICE_MAX ∧
        EDGE_MIN_PP ≤ (model_p - (imp : ℝ)) * 100)) ∧
    ((maybe_add_total (some (.int p)) (some (.str book)) model_p).isSome ↔
      EDGE_MIN_PP ≤ (model_p - (imp : ℝ)) * 100) := by
  constructor
  · simp only [maybe_add_ml, himp]
    split_ifs with h1 h2
    · simp only [Option.isSome_none, Bool.false_eq_true, false_iff]
      rintro ⟨ha, hb, -⟩
      rcases h1 with h | h
      · omega
      · omega
    · simp only [Option.isSome_none, Bool.false_eq_true, false_iff]
      rintro ⟨-, -, hc⟩
      linarith
    · simp only [Option.isSome_some, true_iff]
      push_neg at h1
      exact ⟨h1.1, h1.2, by linarith⟩
  · simp only [maybe_add_total, himp]
    split_ifs with h2
    · simp only [Option.isSome_none, Bool.false_eq_true, false_iff]
      intro hc
      linarith
    · simp only [Option.isSome_some, true_iff]
      linarith

/-- Witness for C7 at price `-110`, implied probability `11/21`, model
probability `3/5`. -/
theorem C7_edge_filter_witness :
    ((maybe_add_ml (some (.int (-110))) (some (.str "bk")) ((3 : ℝ) / 5)).isSome ↔
      (ML_PRICE_MIN ≤ (-110 : Int) ∧ (-110 : Int) ≤ ML_PRICE_MAX ∧
        EDGE_MIN_PP ≤ (((3 : ℝ) / 5) - ((11 / 21 : ℚ) : ℝ)) * 100)) ∧
    ((maybe_add_total (some (.int (-110))) (some (.str "bk")) ((3 : ℝ) / 5)).isSome ↔
      EDGE_MIN_PP ≤ (((3 : ℝ) / 5) - ((11 / 21 : ℚ) : ℝ)) * 100) :=
  C7_edge_filter (-110) "bk" ((3 : ℝ) / 5) (11 / 21)
    (by norm_num [implied_prob_from_american])

/-! ### Claim C1 -/

/-- Every row emitted by `build_game_rest` carries no `"id"` key; its
`"game_key"` is the rebuilt key and its `"rest_adv_home"` is whatever
`rest.get("rest_adv_home")` gave for the joined rest row. -/
theorem build_game_rest_entry_shape (t2a : String → Option String)
    (rest_rows : List PyDict) (g r : PyDict)
    (h : build_game_rest_entry t2a rest_rows g = some r) :
    dget r "id" = none ∧
    ∃ k rest, byKeyGet rest_rows k = some rest ∧
      dget r "game_key" = some (.str k) ∧
      dget r "rest_adv_home" = some (dgetOrNull rest "rest_adv_home") := by
  unfold build_game_rest_entry at h
  split at h
  case h_2 => exact absurd h (by simp)
  case h_1 away home commence =>
    split at h
    · exact absurd h (by simp)
    · dsimp only at h
      split at h
      case h_1 => exact absurd h (by simp)
      case h_2 rest hrest =>
        obtain rfl : _ = r := Option.some.inj h
        refine ⟨by simp [dget], _, rest, hrest, by simp [dget], by simp [dget]⟩

/-- The accumulator-generalised membership property of the `by_key`
lookup. -/
theorem byKeyGet_fold_mem (k : String) (l : List PyDict)
    (acc : Option PyDict) (r : PyDict)
    (h : l.foldl
      (fun acc r =>
        match rowKeyOf r with
        | some k2 => if k2 = k then some r else acc
        | none => acc) acc = some r) :
    r ∈ l ∨ acc = some r := by
  induction l generalizing acc with
  | nil => exact Or.inr h
  | cons x t ih =>
    rw [List.foldl_cons] at h
    rcases ih _ h with hm | hacc
    · exact Or.inl (List.mem_cons_of_mem _ hm)
    · revert hacc
      split
      · split
        · intro hx
          exact Or.inl (by rw [← Option.some.inj hx]; exact List.mem_cons_self x t)
        · intro hx; exact Or.inr hx
      · intro hx; exact Or.inr hx

/-- A successful `by_key` lookup returns one of the rest rows. -/
theorem byKeyGet_mem (l : List PyDict) (k : String) (r : PyDict)
    (h : byKeyGet l k = some r) : r ∈ l := by
  rcases byKeyGet_fold_mem k l none r h with hm | hacc
  · exact hm
  · exact absurd hacc (by simp)

/-- The `rest_map` fold leaves its accumulator unchanged over rows with no
string `"id"`. -/
theorem restFold_invariant (l : List PyDict)
    (h : ∀ r ∈ l, dget r "id" = none) (m : List (String × Int)) :
    l.foldl
      (fun m r =>
        match dget r "id" with
        | some (.str gid) => setKey m gid (intOrZero (dget r "rest_adv_home"))
        | _ => m) m = m := by
  induction l generalizing m with
  | nil => rfl
  | cons r t ih =>
    rw [List.foldl_cons]
    have hr : dget r "id" = none := h r (List.mem_cons_self r t)
    have hstep :
        (match dget r "id" with
         | some (.str gid) => setKey m gid (intOrZero (dget r "rest_adv_home"))
         | _ => m) = m := by rw [hr]
    rw [hstep]
    exact ih (fun x hx => h x (List.mem_cons_of_mem _ hx)) m

/-- Claim C1: the rest-advantage map built in `generate_signals.main` is
empty for every output of the pipeline — `build_game_rest` emits rows keyed
by `"game_key"` with no `"id"` key at all, so the `"id"` lookup never
matches and `rest_map` stays empty; the advantage value copied from
`"rest_adv_home"` is `None` anyway, because `build_slim_rest` rows carry it
as `"rest_advantage"`; hence every lookup defaults to `0` and the totals
means reduce to `max(0.1, base mean)` with no rest adjustment. -/
theorem C1_rest_map_always_empty (t2a : String → Option String)
    (odds rest_rows : List PyDict) (rows : List SlimRestRow) :
    buildRestMap (build_game_rest t2a odds rest_rows) = [] ∧
    (∀ gid, restLookup (buildRestMap (build_game_rest t2a odds rest_rows)) gid = 0) ∧
    (∀ r ∈ build_game_rest t2a odds (rows.map SlimRestRow.toDict),
      dget r "id" = none ∧ dget r "rest_adv_home" = some .null) ∧
    (∀ row : SlimRestRow,
      dget row.toDict "rest_adv_home" = none ∧
      dget row.toDict "game_key" = some (.str row.game_key) ∧
      dget row.toDict "rest_advantage" = some (.int row.rest_advantage)) ∧
    (∀ muH muA : ℝ, totalsMeans muH muA 0 = (max 0.1 muH, max 0.1 muA)) := by
  have hshape : ∀ rr : List PyDict, ∀ r ∈ build_game_rest t2a odds rr,
      dget r "id" = none := by
    intro rr r hr
    rw [build_game_rest, List.mem_filterMap] at hr
    obtain ⟨g, -, hg⟩ := hr
    exact (build_game_rest_entry_shape t2a rr g r hg).1
  have hempty : buildRestMap (build_game_rest t2a odds rest_rows) = [] :=
    restFold_invariant _ (hshape rest_rows) []
  refine ⟨hempty, ?_, ?_, ?_, ?_⟩
  · intro gid
    rw [hempty]
    rfl
  · intro r hr
    have hid := hshape _ r hr
    rw [build_game_rest, List.mem_filterMap] at hr
    obtain ⟨g, -, hg⟩ := hr
    obtain ⟨-, k, rest, hlook, -, hadv⟩ :=
      build_game_rest_entry_shape t2a _ g r hg
    have hmem := byKeyGet_mem _ _ _ hlook
    rw [List.mem_map] at hmem
    obtain ⟨row, -, rfl⟩ := hmem
    have : dgetOrNull row.toDict "rest_adv_home" = .null := by
      simp [SlimRestRow.toDict, dgetOrNull, dget]
    rw [this] at hadv
    exact ⟨hid, hadv⟩
  · intro row
    refine ⟨by simp [SlimRestRow.toDict, dget], by simp [SlimRestRow.toDict, dget],
      by simp [SlimRestRow.toDict, dget]⟩
  · intro muH muA
    simp [totalsMeans]

/-- Witness for C1 on a concrete one-game slate joined against a concrete
`build_slim_rest` row. -/
theorem C1_rest_map_always_empty_witness :
    buildRestMap (build_game_rest t2aW [oddsGameW] [rowC4.toDict]) = [] ∧
    restLookup (buildRestMap (build_game_rest t2aW [oddsGameW] [rowC4.toDict]))
      "NYR_vs_BOS_2026-01-10" = 0 ∧
    dget rowC4.toDict "rest_adv_home" = none := by
  refine ⟨(C1_rest_map_always_empty t2aW [oddsGameW] [rowC4.toDict] [rowC4]).1,
    (C1_rest_map_always_empty t2aW [oddsGameW] [rowC4.toDict] [rowC4]).2.1 _,
    ((C1_rest_map_always_empty t2aW [oddsGameW] [rowC4.toDict] [rowC4]).2.2.2.1 rowC4).1⟩

/-! ### Claim C2 -/

/-- Claim C2 as stated is false: the date field of the key is the first ten
characters of the UTC commence string, not the Eastern calendar date.  For
the concrete game starting `2026-01-10T01:00:00Z`, the emitted key is
`NYR_vs_BOS_2026-01-10`, but the Eastern calendar date of that instant is
2026-01-09 under both possible Eastern offsets (EST, UTC-5:00, and EDT,
UTC-4:00). -/
theorem C2_game_key_counterexample :
    slateEntry t2aW oddsGameW =
      some ⟨"NYR_vs_BOS_" ++ isoDate 2026 1 10, "NYR", "BOS",
            .str "2026-01-10T01:00:00Z"⟩ ∧
    ("2026-01-10T01:00:00Z").take 10 = isoDate 2026 1 10 ∧
    etDay (fun _ => -300) (utcMinutes 2026 1 10 1 0) = daysFromCivil 2026 1 9 ∧
    etDay (fun _ => -240) (utcMinutes 2026 1 10 1 0) = daysFromCivil 2026 1 9 ∧
    daysFromCivil 2026 1 9 ≠ daysFromCivil 2026 1 10 ∧
    isoDate 2026 1 9 ≠ isoDate 2026 1 10 := by
  refine ⟨rfl, by decide, by decide, by decide, by decide, by decide⟩

/-- Claim C2 (amended): `game_key` equals
`"{AWAY}_vs_{HOME}_{str(commence)[:10]}"` — i.e. the calendar-date prefix of
the UTC commence string, not its Eastern conversion — and the key built in
the slate loop of `main` coincides with the key rebuilt inside
`build_game_rest` for the same odds row and abbreviation table. -/
theorem C2_game_key_shape (t2a : String → Option String)
    (rest_rows : List PyDict) (g : PyDict) (a h : String) (c : JVal)
    (ha : t2a (pyGetStrOr g "away_team") = some a)
    (hh : t2a (pyGetStrOr g "home_team") = some h)
    (hc : dget g "commence_time" = some c)
    (ha2 : a ≠ "") (hh2 : h ≠ "") (hc2 : truthyJ c = true) :
    slateEntry t2a g =
      some ⟨a ++ "_vs_" ++ h ++ "_" ++ (pystr c).take 10, a, h, c⟩ ∧
    ∀ r, build_game_rest_entry t2a rest_rows g = some r →
      dget r "game_key" =
        some (.str (a ++ "_vs_" ++ h ++ "_" ++ (pystr c).take 10)) := by
  have hcond : ¬ (a = "" ∨ h = "" ∨ truthyJ c = false) := by
    simp [ha2, hh2, hc2]
  constructor
  · rw [slateEntry, ha, hh, hc]
    dsimp only
    rw [if_neg hcond]
  · intro r hr
    rw [build_game_rest_entry, ha, hh, hc] at hr
    dsimp only at hr
    rw [if_neg hcond] at hr
    split at hr
    · exact absurd hr (by simp)
    · obtain rfl : _ = r := Option.some.inj hr
      simp [dget]

/-- Witness for C2 (amended) on the concrete odds row, with a rest list
containing the matching key so that `build_game_rest` emits a row. -/
theorem C2_game_key_shape_witness :
    slateEntry t2aW oddsGameW =
      some ⟨"NYR" ++ "_vs_" ++ "BOS" ++ "_" ++
              (pystr (.str "2026-01-10T01:00:00Z")).take 10,
            "NYR", "BOS", .str "2026-01-10T01:00:00Z"⟩ ∧
    ∀ r, build_game_rest_entry t2aW [rowC4.toDict] oddsGameW = some r →
      dget r "game_key" =
        some (.str ("NYR" ++ "_vs_" ++ "BOS" ++ "_" ++
          (pystr (.str "2026-01-10T01:00:00Z")).take 10)) :=
  C2_game_key_shape t2aW [rowC4.toDict] oddsGameW "NYR" "BOS"
    (.str "2026-01-10T01:00:00Z") rfl rfl rfl (by decide) (by decide) rfl

/-! ### Claim C3 -/

/-- The accumulator of the previous-game scan stays `none` over candidates
none of which starts strictly before `t`. -/
theorem bestPrev_fold_none (t : Int) (gs : List SGame)
    (h : ∀ g ∈ gs, ∀ s, g.start_utc = some s → ¬ s < t) :
    ∀ acc : Option Int, acc = none →
      gs.foldl
        (fun best g =>
          match g.start_utc with
          | none => best
          | some s =>
            if s < t then
              match best with
              | none => some s
              | some b => if s > b then some s else best
            else best) acc = none := by
  induction gs with
  | nil => intro acc hacc; exact hacc
  | cons g gs ih =>
    intro acc hacc
    rw [List.foldl_cons]
    refine ih (fun x hx => h x (List.mem_cons_of_mem _ hx)) _ ?_
    subst hacc
    cases hgs : g.start_utc with
    | none => rfl
    | some s =>
      have hns := h g (List.mem_cons_self g gs) s hgs
      simp [hgs, hns]

/-- A candidate list with no start strictly before `t` has no best previous
game. -/
theorem bestPrev_eq_none (l : List SGame) (t : Int)
    (h : ∀ g ∈ l, ∀ s, g.start_utc = some s → ¬ s < t) :
    bestPrev l t = none :=
  bestPrev_fold_none t l h none rfl

/-- A successful month fetch with no qualifying prior game filters down to
a candidate list with no start strictly before `t`. -/
theorem fetchTeamMonth_ok_no_prior (fetch : Fetch) (team m : String) (t : Int)
    (h : ∃ l, fetch (pyUpper team) m = .ok l ∧ noQualifyingPrior team t l) :
    ∃ l2, fetchTeamMonth fetch team m = .ok l2 ∧
      ∀ g ∈ l2, ∀ s, g.start_utc = some s → ¬ s < t := by
  obtain ⟨l, hl, hq⟩ := h
  refine ⟨l.filter (fun g => gameHasTeam g (pyUpper team)), ?_, ?_⟩
  · rw [fetchTeamMonth, hl]
  · intro g hg s hs
    have hmem := List.mem_filter.mp hg
    exact hq g hmem.1 hmem.2 s hs

/-- When both candidate months fetch successfully with no qualifying prior
game, the candidate query succeeds with no start strictly before `t`. -/
theorem getCandidates_ok_no_prior (fetch : Fetch) (monthKey : Int → String)
    (team : String) (gameDay lookback t : Int)
    (hA : ∃ l, fetch (pyUpper team) (monthKey gameDay) = .ok l ∧
      noQualifyingPrior team t l)
    (hB : ∃ l, fetch (pyUpper team) (monthKey (gameDay - lookback)) = .ok l ∧
      noQualifyingPrior team t l) :
    ∃ l2, getCandidates fetch monthKey team gameDay lookback = .ok l2 ∧
      ∀ g ∈ l2, ∀ s, g.start_utc = some s → ¬ s < t := by
  obtain ⟨la, hla, hqa⟩ :=
    fetchTeamMonth_ok_no_prior fetch team (monthKey gameDay) t hA
  obtain ⟨lb, hlb, hqb⟩ :=
    fetchTeamMonth_ok_no_prior fetch team (monthKey (gameDay - lookback)) t hB
  unfold getCandidates
  dsimp only
  by_cases hc : monthKey gameDay = monthKey (gameDay - lookback)
  · rw [if_pos hc]
    exact ⟨la, hla, hqa⟩
  · rw [if_neg hc]
    by_cases hlt : monthKey gameDay < monthKey (gameDay - lookback)
    · rw [if_pos hlt]
      try dsimp only
      rw [hla, hlb]
      refine ⟨la ++ lb, rfl, ?_⟩
      intro g hg s hs
      rcases List.mem_append.mp hg with hm | hm
      · exact hqa g hm s hs
      · exact hqb g hm s hs
    · rw [if_neg hlt]
      try dsimp only
      rw [hlb, hla]
      refine ⟨lb ++ la, rfl, ?_⟩
      intro g hg s hs
      rcases List.mem_append.mp hg with hm | hm
      · exact hqb g hm s hs
      · exact hqa g hm s hs

/-- If either of the two candidate-month fetches raises - whatever the
other returns - the candidate query raises. -/
theorem getCandidates_error_oneOf (fetch : Fetch) (monthKey : Int → String)
    (team : String) (gameDay lookback : Int)
    (h : fetch (pyUpper team) (monthKey gameDay) = .error () ∨
      fetch (pyUpper team) (monthKey (gameDay - lookback)) = .error ()) :
    getCandidates fetch monthKey team gameDay lookback = .error () := by
  unfold getCandidates fetchTeamMonth
  dsimp only
  by_cases hc : monthKey gameDay = monthKey (gameDay - lookback)
  · rw [if_pos hc]
    try dsimp only
    rcases h with h | h
    · rw [h]
    · rw [hc, h]
  · rw [if_neg hc]
    by_cases hlt : monthKey gameDay < monthKey (gameDay - lookback)
    · rw [if_pos hlt]
      try dsimp only
      rcases h with h | h
      · rw [h]
      · cases hf : fetch (pyUpper team) (monthKey gameDay) with
        | error e => rfl
        | ok ga => rw [h]
    · rw [if_neg hlt]
      try dsimp only
      rcases h with h | h
      · cases hf : fetch (pyUpper team) (monthKey (gameDay - lookback)) with
        | error e => rfl
        | ok gb => rw [h]
      · rw [h]

/-- Claim C3 as stated is false: when every schedule fetch raises, the
exception propagates out of `compute_team_rest` (there is no `try`/`except`
anywhere in `compute_rest.py`); the degraded
`missing_prev_game` record is not returned. -/
theorem C3_fetch_failure_counterexample :
    compute_team_rest fetchFailW etOffW monthKeyW "BOS" (1440 * 10 + 600) =
      .error () ∧
    compute_team_rest fetchFailW etOffW monthKeyW "BOS" (1440 * 10 + 600) ≠
      .ok ⟨0, false, none, true⟩ := by
  refine ⟨rfl, ?_⟩
  intro hcontra
  rw [show compute_team_rest fetchFailW etOffW monthKeyW "BOS" (1440 * 10 + 600) =
      .error () from rfl] at hcontra
  exact Except.noConfusion hcontra

/-- Claim C3 (amended): the `missing_prev_game` fallback is returned
exactly when fetching succeeds but finds no qualifying prior game - if
every fetch succeeds and no fetched game of the team starts strictly before
the target instant, `compute_team_rest` returns the degraded record; but a
raising fetch propagates: an error in either month of the first (14-day)
lookback propagates whatever the other fetches return, and an error in the
extra month of the widened (30-day) lookback propagates even when the first
lookback succeeded with no qualifying game.  There is no `try`/`except` in
`compute_rest.py`. -/
theorem C3_missing_schedule_fallback (fetch : Fetch) (etOff : Int → Int)
    (monthKey : Int → String) (team : String) (t : Int) :
    ((∀ m, ∃ l, fetch (pyUpper team) m = .ok l ∧ noQualifyingPrior team t l) →
      compute_team_rest fetch etOff monthKey team t =
        .ok ⟨0, false, none, true⟩) ∧
    ((fetch (pyUpper team) (monthKey (etDay etOff t)) = .error () ∨
        fetch (pyUpper team) (monthKey (etDay etOff t - 14)) = .error ()) →
      compute_team_rest fetch etOff monthKey team t = .error ()) ∧
    ((∃ l, fetch (pyUpper team) (monthKey (etDay etOff t)) = .ok l ∧
        noQualifyingPrior team t l) →
     (∃ l, fetch (pyUpper team) (monthKey (etDay etOff t - 14)) = .ok l ∧
        noQualifyingPrior team t l) →
     fetch (pyUpper team) (monthKey (etDay etOff t - 30)) = .error () →
      compute_team_rest fetch etOff monthKey team t = .error ()) := by
  refine ⟨?_, ?_, ?_⟩
  · intro hok
    obtain ⟨l14, h14, hq14⟩ := getCandidates_ok_no_prior fetch monthKey team
      (etDay etOff t) 14 t (hok _) (hok _)
    obtain ⟨l30, h30, hq30⟩ := getCandidates_ok_no_prior fetch monthKey team
      (etDay etOff t) 30 t (hok _) (hok _)
    rw [compute_team_rest, h14]
    try dsimp only
    rw [bestPrev_eq_none l14 t hq14]
    try dsimp only
    rw [h30]
    try dsimp only
    rw [bestPrev_eq_none l30 t hq30]
  · intro h
    rw [compute_team_rest,
      getCandidates_error_oneOf fetch monthKey team (etDay etOff t) 14 h]
  · intro hA hB h30
    obtain ⟨l14, h14, hq14⟩ :=
      getCandidates_ok_no_prior fetch monthKey team (etDay etOff t) 14 t hA hB
    rw [compute_team_rest, h14]
    try dsimp only
    rw [bestPrev_eq_none l14 t hq14]
    try dsimp only
    rw [getCandidates_error_oneOf fetch monthKey team (etDay etOff t) 30
      (Or.inr h30)]

/-- Witness for C3 (amended): a fetch that succeeds everywhere but returns
only a future game (no qualifying prior game) produces the degraded
record. -/
theorem C3_missing_schedule_fallback_witness :
    compute_team_rest fetchFutureW etOffW monthKeyW "BOS" (1440 * 10 + 600) =
      .ok ⟨0, false, none, true⟩ :=
  (C3_missing_schedule_fallback fetchFutureW etOffW monthKeyW "BOS"
    (1440 * 10 + 600)).1
    (fun m => ⟨[sgFutureW], rfl, fun g hg _ s hs => by
      rw [List.mem_singleton] at hg
      subst hg
      obtain rfl := Option.some.inj hs
      decide⟩)

/-! ### Claim C4 -/

/-- Claim C4 as stated is false: `build_slim_rest` computes
`rest_advantage = home_rest_days - away_rest_days` unconditionally, with a
missing side contributing `0` rest days; it is not forced to zero when a
previous game of a side is missing.  Concretely, with no schedule data for the
away team and a home prior game three Eastern days back, the emitted row
has `away_rest_missing = true` but `rest_advantage = 2`. -/
theorem C4_rest_advantage_counterexample :
    build_slim_rest fetchC4 etOffW monthKeyW [restSlateW] = .ok [rowC4] ∧
    rowC4.away_rest_missing = true ∧ rowC4.rest_advantage ≠ 0 := by
  refine ⟨rfl, rfl, by decide⟩

/-- Claim C4 (amended): every row produced by the rest engine satisfies
`rest_advantage = home_rest_days - away_rest_days`; when the previous
game of a side is missing, that side contributes `0` rest days (so the advantage
reflects the rest of the other side rather than being forced to zero). -/
theorem C4_rest_advantage_formula (fetch : Fetch) (etOff : Int → Int)
    (monthKey : Int → String) (games : List RestSlateGame)
    (rows : List SlimRestRow)
    (h : build_slim_rest fetch etOff monthKey games = .ok rows) :
    ∀ r ∈ rows, r.rest_advantage = r.home_rest_days - r.away_rest_days := by
  induction games generalizing rows with
  | nil =>
    obtain rfl : [] = rows := Except.ok.inj h
    intro r hr
    exact absurd hr (by simp)
  | cons g t ih =>
    rw [build_slim_rest] at h
    split at h
    · exact absurd h (by simp)
    · split at h
      · exact absurd h (by simp)
      · split at h
        · exact absurd h (by simp)
        · obtain rfl : _ = rows := Except.ok.inj h
          intro r hr
          rcases List.mem_cons.mp hr with rfl | hmem
          · rfl
          · exact ih _ (by assumption) r hmem

/-- Witness for C4 (amended) on the concrete `fetchC4` scenario. -/
theorem C4_rest_advantage_formula_witness :
    rowC4.rest_advantage = rowC4.home_rest_days - rowC4.away_rest_days :=
  C4_rest_advantage_formula fetchC4 etOffW monthKeyW [restSlateW] [rowC4]
    rfl rowC4 (List.mem_singleton_self rowC4)

/-! ### Claim C5 -/

/-- Structure of a successful rest computation: either the degraded
missing-record or a record built by `mkTeamRest` from some previous start
instant. -/
theorem compute_team_rest_ok_cases (fetch : Fetch) (etOff : Int → Int)
    (monthKey : Int → String) (team : String) (t : Int) (r : TeamRest)
    (hok : compute_team_rest fetch etOff monthKey team t = .ok r) :
    r = ⟨0, false, none, true⟩ ∨
    ∃ b, r = mkTeamRest etOff (etDay etOff t) b := by
  rw [compute_team_rest] at hok
  split at hok
  · exact absurd hok (by simp)
  · split at hok
    · exact Or.inr ⟨_, (Except.ok.inj hok).symm⟩
    · split at hok
      · exact absurd hok (by simp)
      · split at hok
        · exact Or.inr ⟨_, (Except.ok.inj hok).symm⟩
        · exact Or.inl (Except.ok.inj hok).symm

/-- Claim C5: whenever the engine finds a qualifying prior game (recorded
in `prev_game_et_date`), `rest_days = max 0 (game_day - previous_day - 1)`
on Eastern calendar days, `is_back_to_back` holds iff `rest_days = 0`, and
in particular a previous game exactly one Eastern day before yields
`(0, true)` and exactly two days before yields `(1, false)`. -/
theorem C5_rest_days_formula (fetch : Fetch) (etOff : Int → Int)
    (monthKey : Int → String) (team : String) (t : Int) (r : TeamRest)
    (p : Int)
    (hok : compute_team_rest fetch etOff monthKey team t = .ok r)
    (hprev : r.prev_game_et_date = some p) :
    r.rest_days = max 0 (etDay etOff t - p - 1) ∧
    (r.b2b = true ↔ r.rest_days = 0) ∧
    r.missing_prev_game = false ∧
    (etDay etOff t - p = 1 → r.rest_days = 0 ∧ r.b2b = true) ∧
    (etDay etOff t - p = 2 → r.rest_days = 1 ∧ r.b2b = false) := by
  rcases compute_team_rest_ok_cases fetch etOff monthKey team t r hok with
    rfl | ⟨b, rfl⟩
  · exact absurd hprev (by simp)
  · unfold mkTeamRest at hprev ⊢
    dsimp only at hprev ⊢
    obtain rfl : etDay etOff b = p := Option.some.inj hprev
    set d := etDay etOff t - etDay etOff b - 1 with hd
    constructor
    · split_ifs with hneg
      · omega
      · omega
    · refine ⟨?_, rfl, ?_, ?_⟩
      · split_ifs with hneg
        · simp
        · simp only [beq_iff_eq]
      · intro h1
        have : d = 0 := by omega
        rw [this]
        simp
      · intro h2
        have : d = 1 := by omega
        rw [this]
        simp

/-- Witness for C5: a previous game one Eastern day before the target is a
back-to-back with zero rest days. -/
theorem C5_rest_days_formula_witness :
    (⟨0, true, some 9, false⟩ : TeamRest).rest_days =
      max 0 (etDay etOffW (1440 * 10 + 600) - 9 - 1) ∧
    ((⟨0, true, some 9, false⟩ : TeamRest).b2b = true ↔
      (⟨0, true, some 9, false⟩ : TeamRest).rest_days = 0) ∧
    (⟨0, true, some 9, false⟩ : TeamRest).missing_prev_game = false ∧
    (etDay etOffW (1440 * 10 + 600) - 9 = 1 →
      (⟨0, true, some 9, false⟩ : TeamRest).rest_days = 0 ∧
      (⟨0, true, some 9, false⟩ : TeamRest).b2b = true) ∧
    (etDay etOffW (1440 * 10 + 600) - 9 = 2 →
      (⟨0, true, some 9, false⟩ : TeamRest).rest_days = 1 ∧
      (⟨0, true, some 9, false⟩ : TeamRest).b2b = false) :=
  C5_rest_days_formula fetchB2B etOffW monthKeyW "BOS" (1440 * 10 + 600)
    ⟨0, true, some 9, false⟩ 9 rfl rfl

/-! ### Claim C6 -/

/-- Python `round` of an integer value is that integer. -/
theorem pyround_intCast (k : Int) : pyround (k : ℚ) = k := by
  unfold pyround
  rw [Int.floor_intCast, if_neg (by norm_num)]
  exact round_intCast k

/-- The floor of a half-integer. -/
theorem floor_int_add_half (n : Int) : ⌊(n : ℚ) + 1 / 2⌋ = n := by
  rw [add_comm, Int.floor_add_int]
  norm_num

/-- A half-integer sits exactly half a unit from its Python rounding
(whichever neighbour round-half-to-even picks). -/
theorem abs_sub_pyround_half (n : Int) :
    |((n : ℚ) + 1 / 2) - (pyround ((n : ℚ) + 1 / 2) : ℚ)| = 1 / 2 := by
  unfold pyround
  rw [floor_int_add_half, if_pos (by ring)]
  split_ifs with he
  · rw [show ((n : ℚ) + 1 / 2) - (n : ℚ) = 1 / 2 by ring]
    norm_num
  · rw [show ((n : ℚ) + 1 / 2) - ((n + 1 : Int) : ℚ) = -(1 / 2) by push_cast; ring]
    norm_num

/-- An integer totals line takes the integer (push-possible) branch. -/
theorem totalsProbs_intCast (k : Int) (mu : ℝ) :
    totalsProbs (k : ℚ) mu = (1 - poisson_cdf k mu, poisson_cdf (k - 1) mu) := by
  unfold totalsProbs
  dsimp only
  rw [pyround_intCast, if_pos (by simp)]

/-- A half-integer totals line takes the half-line branch on its floor. -/
theorem totalsProbs_half (n : Int) (mu : ℝ) :
    totalsProbs ((n : ℚ) + 1 / 2) mu = (1 - poisson_cdf n mu, poisson_cdf n mu) := by
  unfold totalsProbs
  dsimp only
  rw [if_neg (by rw [abs_sub_pyround_half]; norm_num), floor_int_add_half]

/-- The recurrence sum is positive for positive mean. -/
theorem poissonSum_pos (k : ℕ) (mu : ℝ) (h : 0 < mu) : 0 < poissonSum k mu := by
  unfold poissonSum
  refine Finset.sum_pos (fun i _ => by positivity) ⟨0, by simp⟩

/-- The recurrence sum is strictly below `exp mu` for positive mean (the
missing tail is positive). -/
theorem poissonSum_lt_exp (k : ℕ) (mu : ℝ) (h : 0 < mu) :
    poissonSum k mu < Real.exp mu := by
  have h1 := Real.sum_le_exp_of_nonneg h.le (k + 2)
  rw [Finset.sum_range_succ] at h1
  have h2 : 0 < mu ^ (k + 1) / (Nat.factorial (k + 1)) := by positivity
  unfold poissonSum
  calc ∑ i ∈ Finset.range (k + 1), mu ^ i / (Nat.factorial i)
      < (∑ i ∈ Finset.range (k + 1), mu ^ i / (Nat.factorial i)) +
        mu ^ (k + 1) / (Nat.factorial (k + 1)) := by linarith
    _ ≤ Real.exp mu := h1

/-- For `k >= 0` and `mu > 0` the clamps in `poisson_cdf` are inactive. -/
theorem poisson_cdf_eq (k : Int) (mu : ℝ) (hk : 0 ≤ k) (hmu : 0 < mu) :
    poisson_cdf k mu = Real.exp (-mu) * poissonSum k.toNat mu := by
  unfold poisson_cdf
  rw [if_neg (by omega), if_neg (by linarith)]
  have hpos : 0 < Real.exp (-mu) * poissonSum k.toNat mu :=
    mul_pos (Real.exp_pos _) (poissonSum_pos _ _ hmu)
  have hlt : Real.exp (-mu) * poissonSum k.toNat mu < 1 := by
    have h3 : Real.exp (-mu) * poissonSum k.toNat mu <
        Real.exp (-mu) * Real.exp mu :=
      mul_lt_mul_of_pos_left (poissonSum_lt_exp k.toNat mu hmu) (Real.exp_pos _)
    rwa [← Real.exp_add, neg_add_cancel, Real.exp_zero] at h3
  rw [max_eq_right hpos.le, min_eq_right hlt.le]

/-- Claim C6: for a positive total mean, an integer line `k` gives
`P(over) = 1 - PoissonCDF(k)` and `P(under) = PoissonCDF(k-1)`, whose sum
falls short of 1 by the (positive, for `k >= 0`) push mass `P(X = k)`;
a half-integer line with floor `n` gives `P(over) = 1 - PoissonCDF(n)` and
`P(under) = PoissonCDF(n)`, which sum to exactly 1. -/
theorem C6_totals_push_semantics (mu : ℝ) (hmu : 0 < mu) (k n : Int) :
    (totalsProbs (k : ℚ) mu).1 = 1 - poisson_cdf k mu ∧
    (totalsProbs (k : ℚ) mu).2 = poisson_cdf (k - 1) mu ∧
    (0 ≤ k → 0 < poisson_pmf k mu) ∧
    (0 < poisson_pmf k mu →
      (totalsProbs (k : ℚ) mu).1 + (totalsProbs (k : ℚ) mu).2 < 1) ∧
    (totalsProbs ((n : ℚ) + 1 / 2) mu).1 = 1 - poisson_cdf n mu ∧
    (totalsProbs ((n : ℚ) + 1 / 2) mu).2 = poisson_cdf n mu ∧
    (totalsProbs ((n : ℚ) + 1 / 2) mu).1 +
      (totalsProbs ((n : ℚ) + 1 / 2) mu).2 = 1 := by
  have hint := totalsProbs_intCast k mu
  have hhalf := totalsProbs_half n mu
  refine ⟨by rw [hint], by rw [hint], ?_, ?_, by rw [hhalf], by rw [hhalf],
    by rw [hhalf]; ring⟩
  · intro hk
    unfold poisson_pmf
    rw [if_neg (by omega)]
    positivity
  · intro hpmf
    have hk : 0 ≤ k := by
      by_contra hneg
      unfold poisson_pmf at hpmf
      rw [if_pos (by omega)] at hpmf
      exact lt_irrefl 0 hpmf
    rw [hint]
    dsimp only
    by_cases hk0 : k = 0
    · subst hk0
      have h1 : poisson_cdf (0 - 1) mu = 0 := by
        unfold poisson_cdf
        rw [if_pos (by norm_num)]
      have h2 := poisson_cdf_eq 0 mu le_rfl hmu
      have h3 : 0 < Real.exp (-mu) * poissonSum (0 : Int).toNat mu :=
        mul_pos (Real.exp_pos _) (poissonSum_pos _ _ hmu)
      rw [h1, h2]
      linarith
    · have h2 := poisson_cdf_eq k mu hk hmu
      have h3 := poisson_cdf_eq (k - 1) mu (by omega) hmu
      have hsplit : poissonSum k.toNat mu =
          poissonSum (k - 1).toNat mu +
            mu ^ k.toNat / (Nat.factorial k.toNat) := by
        have hm : (k - 1).toNat + 1 = k.toNat := by omega
        unfold poissonSum
        rw [← hm, Finset.sum_range_succ]
      have hterm : 0 < Real.exp (-mu) *
          (mu ^ k.toNat / (Nat.factorial k.toNat)) := by positivity
      rw [h2, h3, hsplit]
      have hring : 1 - Real.exp (-mu) *
            (poissonSum (k - 1).toNat mu + mu ^ k.toNat / (Nat.factorial k.toNat)) +
          Real.exp (-mu) * poissonSum (k - 1).toNat mu =
          1 - Real.exp (-mu) * (mu ^ k.toNat / (Nat.factorial k.toNat)) := by
        ring
      rw [hring]
      linarith

/-- Witness for C6 at `mu = 1`, integer line `6`, half line `6.5`. -/
theorem C6_totals_push_semantics_witness :
    (totalsProbs ((6 : Int) : ℚ) 1).1 + (totalsProbs ((6 : Int) : ℚ) 1).2 < 1 ∧
    (totalsProbs (((6 : Int) : ℚ) + 1 / 2) 1).1 +
      (totalsProbs (((6 : Int) : ℚ) + 1 / 2) 1).2 = 1 := by
  have h := C6_totals_push_semantics 1 one_pos 6 6
  exact ⟨h.2.2.2.1 (h.2.2.1 (by norm_num)), h.2.2.2.2.2.2⟩

/-! ### Claim C8 -/

/-- An odds row whose `"id"` is not a string. -/
def gNonStrIdW : PyDict := [("id", .int 5)]

/-- Claim C8 as stated is false: a game whose `"id"` is not a string is
skipped by a bare `continue` — it produces no signal and receives no
skip-reason entry, i.e. it is dropped silently. -/
theorem C8_silent_drop_counterexample :
    processGame (fun _ => none) [] gNonStrIdW = ([], [], []) := rfl

/-- Claim C8 (amended): the loop appends specific, distinguishing reasons
for unparsable abbreviations, missing team stats, a degenerate `sd <= 0`,
and a missing totals line/best — but a game with a missing or non-string
`"id"`, and a game whose `"totals"` field is truthy yet not a dict, are
dropped silently with no skip entry (and no totals signal). -/
theorem C8_skip_reasons (tm : String → Option (ℝ × ℝ))
    (rm : List (String × Int)) (g : PyDict) (gid : String) :
    (dget g "id" = none → processGame tm rm g = ([], [], [])) ∧
    (∀ v, dget g "id" = some v → (∀ s, v ≠ .str s) →
      processGame tm rm g = ([], [], [])) ∧
    (dget g "id" = some (.str gid) →
      (strTruthy (parse_abbrevs_from_game_id gid).1 = false ∨
        strTruthy (parse_abbrevs_from_game_id gid).2 = false) →
      processGame tm rm g = ([s!"{gid}: cannot parse abbrevs from id"], [], [])) ∧
    (∀ a b, dget g "id" = some (.str gid) →
      parse_abbrevs_from_game_id gid = (some a, some b) → a ≠ "" → b ≠ "" →
      (tm a = none ∨ tm b = none) →
      processGame tm rm g =
        ([s!"{gid}: missing team stats for {a} or {b}"], [], [])) ∧
    (∀ a b, ∀ ap hp : ℝ × ℝ, dget g "id" = some (.str gid) →
      parse_abbrevs_from_game_id gid = (some a, some b) → a ≠ "" → b ≠ "" →
      tm a = some ap → tm b = some hp →
      (hp.1 + ap.2) / 2 + (ap.1 + hp.2) / 2 ≤ 0 →
      processGame tm rm g = ([s!"{gid}: sd<=0 for ML"], [], [])) ∧
    (∀ a b, ∀ ap hp : ℝ × ℝ, dget g "id" = some (.str gid) →
      parse_abbrevs_from_game_id gid = (some a, some b) → a ≠ "" → b ≠ "" →
      tm a = some ap → tm b = some hp →
      0 < (hp.1 + ap.2) / 2 + (ap.1 + hp.2) / 2 →
      dget g "h2h" = none → dget g "totals" = none →
      processGame tm rm g = ([s!"{gid}: missing totals line/best"], [], [])) ∧
    (∀ a b, ∀ ap hp : ℝ × ℝ, ∀ tv : JVal, dget g "id" = some (.str gid) →
      parse_abbrevs_from_game_id gid = (some a, some b) → a ≠ "" → b ≠ "" →
      tm a = some ap → tm b = some hp →
      0 < (hp.1 + ap.2) / 2 + (ap.1 + hp.2) / 2 →
      dget g "h2h" = none → dget g "totals" = some tv →
      truthyJ tv = true → (∀ d, tv ≠ .obj d) →
      processGame tm rm g = ([], [], [])) := by
  refine ⟨?_, ?_, ?_, ?_, ?_, ?_, ?_⟩
  · intro hid
    unfold processGame
    rw [hid]
  · intro v hv hnv
    unfold processGame
    rw [hv]
    cases v with
    | str s => exact absurd rfl (hnv s)
    | null => rfl
    | bool b => rfl
    | int n => rfl
    | num q => rfl
    | obj kvs => rfl
  · intro hid hfalse
    unfold processGame
    rw [hid]
    try dsimp only
    rcases hfalse with h | h <;> simp [h]
  · intro a b hid hab ha hb htm
    unfold processGame
    rw [hid]
    try dsimp only
    rw [hab]
    try dsimp only
    rw [show strTruthy (some a) = true by simp [strTruthy, ha],
        show strTruthy (some b) = true by simp [strTruthy, hb]]
    simp only [Bool.not_true, Bool.or_self, Bool.false_eq_true, if_false, Option.getD]
    rcases htm with h | h
    · rw [h]
    · cases htma : tm a with
      | none => rw [h]
      | some ap => rw [h]
  · intro a b ap hp hid hab ha hb hta htb hvar
    unfold processGame
    rw [hid]
    try dsimp only
    rw [hab]
    try dsimp only
    rw [show strTruthy (some a) = true by simp [strTruthy, ha],
        show strTruthy (some b) = true by simp [strTruthy, hb]]
    simp only [Bool.not_true, Bool.or_self, Bool.false_eq_true, if_false, Option.getD]
    rw [hta, htb]
    try dsimp only
    rw [if_neg (not_lt.mpr hvar), if_pos le_rfl]
  · intro a b ap hp hid hab ha hb hta htb hvar hh2h htot
    unfold processGame
    rw [hid]
    try dsimp only
    rw [hab]
    try dsimp only
    rw [show strTruthy (some a) = true by simp [strTruthy, ha],
        show strTruthy (some b) = true by simp [strTruthy, hb]]
    simp only [Bool.not_true, Bool.or_self, Bool.false_eq_true, if_false, Option.getD]
    rw [hta, htb]
    try dsimp only
    rw [if_pos hvar, if_neg (not_le.mpr (Real.sqrt_pos.mpr hvar)), hh2h, htot]
    dsimp only [pyOrEmpty, dget, asNum, maybe_add_ml, optCons]
  · intro a b ap hp tv hid hab ha hb hta htb hvar hh2h htot htv hnotobj
    unfold processGame
    rw [hid]
    try dsimp only
    rw [hab]
    try dsimp only
    rw [show strTruthy (some a) = true by simp [strTruthy, ha],
        show strTruthy (some b) = true by simp [strTruthy, hb]]
    simp only [Bool.not_true, Bool.or_self, Bool.false_eq_true, if_false, Option.getD]
    rw [hta, htb]
    try dsimp only
    rw [if_pos hvar, if_neg (not_le.mpr (Real.sqrt_pos.mpr hvar)), hh2h, htot]
    dsimp only [pyOrEmpty, dget, maybe_add_ml, optCons]
    rw [htv]
    cases tv with
    | obj d => exact absurd rfl (hnotobj d)
    | null => rfl
    | bool bb => rfl
    | int nn => rfl
    | num qq => rfl
    | str ss => rfl

/-- Witness for C8 (amended): an id with no `_vs_` separator receives the
parse-failure skip reason. -/
theorem C8_skip_reasons_witness :
    processGame (fun _ => none) [] [("id", .str "badid")] =
      (["badid: cannot parse abbrevs from id"], [], []) :=
  (C8_skip_reasons (fun _ => none) [] [("id", .str "badid")] "badid").2.2.1
    rfl (Or.inl rfl)
